import Mathlib

/-!
Verification of the StockFlow inventory/point-of-sale dashboard.

This file gives a shallow embedding of the two core engines of the
repository — the register-sale cart engine (`src/pages/RegisterSale.tsx`,
`src/App.tsx`) and the inventory view engine (filter/sort/paginate) — and
proves the specified properties about them.

Conventions of the embedding:
* Product quantities are natural numbers; JavaScript's `Math.max(0, a - b)`
  on integers is embedded as `(max 0 ((a : ℤ) - b)).toNat`.
* Prices are rationals. In the source, prices are stored as currency
  strings and parsed at the boundary (`parseFloat`); per the spec (§6)
  currency parsing/formatting is a boundary adapter, not core logic, so
  the embedding carries the parsed decimal value directly.
* Dates are timestamps (naturals), embedding `new Date(s).getTime()`.
* JavaScript string operations (`toLowerCase`, `includes`, `trim`) are
  embedded character-wise (`jsToLower`, `jsIncludes`, `jsTrim`).
* `Array.prototype.sort` is guaranteed stable by the ECMAScript spec; it is
  embedded as a merge sort over index-tagged elements whose order relation
  is the source comparator with ties broken by original position.
-/

namespace StockFlow

/-- A catalog product, after `src/App.tsx`'s product objects.  The `status`
field is stored on the object in the source (recomputed on every quantity
write via `getStatus`). -/
structure Product where
  id : String
  name : String
  sku : String
  category : String
  price : ℚ
  qty : ℕ
  status : String
  date : ℕ
  image : String
deriving DecidableEq, Repr

/-- A cart line, after the `CartItem` interface in
`src/pages/RegisterSale.tsx`. -/
structure CartItem where
  id : String
  name : String
  price : ℚ
  qty : ℕ
  maxQty : ℕ
  sku : String
deriving DecidableEq, Repr

/-- Derived stock status, after `getStatus` in `src/App.tsx` (lines 54–58). -/
def getStatus (qty : ℕ) : String :=
  if qty = 0 then "Out of Stock"
  else if qty < 40 then "Low Stock"
  else "In Stock"

/-- `addToCart` from `src/pages/RegisterSale.tsx` (lines 49–76): if the
product is already in the cart, increment its quantity unless the cart
already holds the full stock; otherwise append a fresh line with quantity 1,
a price snapshot, and a max-quantity ceiling equal to current stock. -/
def addToCart (cart : List CartItem) (product : Product) : List CartItem :=
  let existingItem := cart.find? (fun item => item.id = product.id)
  let currentQtyInCart := match existingItem with
    | some it => it.qty
    | none => 0
  if product.qty ≤ currentQtyInCart then
    cart
  else
    match existingItem with
    | some _ =>
        cart.map (fun item =>
          if item.id = product.id then { item with qty := item.qty + 1 } else item)
    | none =>
        cart ++ [{ id := product.id, name := product.name, price := product.price,
                   qty := 1, maxQty := product.qty, sku := product.sku }]

/-- `updateCartQty` from `src/pages/RegisterSale.tsx` (lines 78–88): apply a
delta to the line with the given id, rejecting results below 1 or above the
line's `maxQty` as no-ops. -/
def updateCartQty (cart : List CartItem) (id : String) (delta : ℤ) : List CartItem :=
  cart.map (fun item =>
    if item.id = id then
      let newQty : ℤ := (item.qty : ℤ) + delta
      if newQty ≤ 0 then item
      else if (item.maxQty : ℤ) < newQty then item
      else { item with qty := newQty.toNat }
    else item)

/-- `removeFromCart` from `src/pages/RegisterSale.tsx` (lines 90–92). -/
def removeFromCart (cart : List CartItem) (id : String) : List CartItem :=
  cart.filter (fun item => ¬ item.id = id)

/-- Step 2 of `handleProcessSale` in `src/App.tsx` (lines 756–771): for each
catalog product matched by a sold line, decrement its quantity by the line
quantity floored at zero and recompute its status; all other products are
returned unchanged. -/
def handleProcessSaleProducts (products : List Product) (soldItems : List CartItem) :
    List Product :=
  products.map (fun p =>
    match soldItems.find? (fun item => item.id = p.id) with
    | some soldItem =>
        let newQty : ℕ := (max 0 ((p.qty : ℤ) - (soldItem.qty : ℤ))).toNat
        { p with qty := newQty, status := getStatus newQty }
    | none => p)

/-- The kinds of stock alert emitted by a sale. -/
inductive AlertKind where
  | outOfStock
  | lowStock
deriving DecidableEq, Repr

/-- Step 1 of `handleProcessSale` in `src/App.tsx` (lines 720–754), for one
sold line: look the product up in the pre-sale catalog and emit an
out-of-stock alert when its quantity crosses to 0, else a low-stock alert
when it crosses from ≥ 40 to < 40. -/
def alertFor (products : List Product) (item : CartItem) : Option (AlertKind × String) :=
  match products.find? (fun p => p.id = item.id) with
  | none => none
  | some product =>
      let newQty : ℕ := (max 0 ((product.qty : ℤ) - (item.qty : ℤ))).toNat
      if 0 < product.qty ∧ newQty = 0 then some (AlertKind.outOfStock, product.name)
      else if 40 ≤ product.qty ∧ newQty < 40 then some (AlertKind.lowStock, product.name)
      else none

/-- All alerts emitted by `handleProcessSale` for a sale, in line order. -/
def saleAlerts (products : List Product) (soldItems : List CartItem) :
    List (AlertKind × String) :=
  soldItems.filterMap (alertFor products)

/-- Commit failure, after the empty-cart guard in `handleCompleteSale`
(`src/pages/RegisterSale.tsx` lines 110–121); the spec names it
`EmptyCartError`. -/
inductive CommitError where
  | emptyCart
deriving DecidableEq, Repr

/-- `handleCompleteSale` from `src/pages/RegisterSale.tsx` (lines 110–121)
combined with the catalog mutation of `handleProcessSale`: on an empty cart
the commit fails and nothing changes; otherwise the catalog is reconciled
and the cart is cleared.  Returns the post-commit (catalog, cart) state and
the failure, if any. -/
def handleCompleteSale (products : List Product) (cart : List CartItem) :
    (List Product × List CartItem) × Option CommitError :=
  if cart.length = 0 then ((products, cart), some CommitError.emptyCart)
  else ((handleProcessSaleProducts products cart, []), none)

/-- Claim C6: the derived stock status is Out of Stock exactly when the
quantity is 0, Low Stock exactly when it is strictly between 0 and 40, and
In Stock exactly when it is at least 40; in particular 0, 39, 40 resolve to
Out of Stock, Low Stock, In Stock respectively. -/
theorem C6_status_thresholds (q : ℕ) :
    (getStatus q = "Out of Stock" ↔ q = 0) ∧
    (getStatus q = "Low Stock" ↔ 0 < q ∧ q < 40) ∧
    (getStatus q = "In Stock" ↔ 40 ≤ q) ∧
    getStatus 0 = "Out of Stock" ∧ getStatus 39 = "Low Stock" ∧
    getStatus 40 = "In Stock" := by
  unfold getStatus
  refine ⟨?_, ?_, ?_, by decide, by decide, by decide⟩ <;>
    (split_ifs <;> simp_all <;> omega)

/-- Claim C4: committing an empty cart fails with the empty-cart error and
leaves the catalog (and cart) unchanged. -/
theorem C4_empty_cart_commit (products : List Product) :
    handleCompleteSale products [] = ((products, []), some CommitError.emptyCart) := rfl

/-- Demo catalog product A with stock 5, for the worked commit example. -/
def prodA : Product :=
  { id := "A", name := "Product A", sku := "SKU-A", category := "Electronics",
    price := 10, qty := 5, status := "Low Stock", date := 0, image := "" }

/-- Demo catalog product B with stock 2, for the worked commit example. -/
def prodB : Product :=
  { id := "B", name := "Product B", sku := "SKU-B", category := "Electronics",
    price := 20, qty := 2, status := "Low Stock", date := 0, image := "" }

/-- Demo cart line selling 3 units of product A. -/
def lineA : CartItem :=
  { id := "A", name := "Product A", price := 10, qty := 3, maxQty := 5, sku := "SKU-A" }

/-- Demo cart line selling 2 units of product B. -/
def lineB : CartItem :=
  { id := "B", name := "Product B", price := 20, qty := 2, maxQty := 2, sku := "SKU-B" }

/-- Claim C1: committing a non-empty cart succeeds, empties the cart, and
decrements each sold product's quantity by its line quantity floored at
zero (products matched by no line are untouched); in particular committing
lines [(A,3),(B,2)] against stock {A:5,B:2} yields {A:2,B:0} with product
B's derived status Out of Stock and an empty cart. -/
theorem C1_commit_decrements (products : List Product) (cart : List CartItem)
    (hne : cart ≠ []) :
    (handleCompleteSale products cart).2 = none ∧
    (handleCompleteSale products cart).1.2 = [] ∧
    (∀ (i : ℕ) (p : Product), products[i]? = some p →
      ((∀ line ∈ cart, ¬ line.id = p.id) →
        (handleCompleteSale products cart).1.1[i]? = some p) ∧
      (∀ line, cart.find? (fun it => it.id = p.id) = some line →
        (handleCompleteSale products cart).1.1[i]? =
          some { p with qty := (max 0 ((p.qty : ℤ) - (line.qty : ℤ))).toNat,
                        status := getStatus ((max 0 ((p.qty : ℤ) - (line.qty : ℤ))).toNat) })) ∧
    handleCompleteSale [prodA, prodB] [lineA, lineB] =
      (([{ prodA with qty := 2, status := "Low Stock" },
         { prodB with qty := 0, status := "Out of Stock" }], []), none) := by
  have hlen : ¬ cart.length = 0 := by
    simpa [List.length_eq_zero] using hne
  refine ⟨?_, ?_, ?_, by decide⟩
  · simp [handleCompleteSale, hlen]
  · simp [handleCompleteSale, hlen]
  · intro i p hp
    constructor
    · intro hnone
      have hfind : cart.find? (fun it => it.id = p.id) = none := by
        rw [List.find?_eq_none]
        intro line hline
        simpa using hnone line hline
      simp [handleCompleteSale, hlen, handleProcessSaleProducts, hp, hfind]
    · intro line hfind
      simp [handleCompleteSale, hlen, handleProcessSaleProducts, hp, hfind]

/-- Closed witness for C1 at the worked example inputs. -/
theorem C1_commit_decrements_witness :
    (handleCompleteSale [prodA, prodB] [lineA, lineB]).2 = none :=
  (C1_commit_decrements [prodA, prodB] [lineA, lineB] (by decide)).1

/-- Claim C5: for each committed line whose product is found in the pre-sale
catalog, a Low-Stock alert is emitted when the quantity crosses from ≥ 40 to
< 40 while staying positive, and an Out-of-Stock alert is emitted when it
crosses from > 0 to 0. -/
theorem C5_sale_alerts (products : List Product) (soldItems : List CartItem)
    (item : CartItem) (p : Product) (hmem : item ∈ soldItems)
    (hfind : products.find? (fun q => q.id = item.id) = some p) :
    (40 ≤ p.qty → (max 0 ((p.qty : ℤ) - (item.qty : ℤ))).toNat < 40 →
      0 < (max 0 ((p.qty : ℤ) - (item.qty : ℤ))).toNat →
      (AlertKind.lowStock, p.name) ∈ saleAlerts products soldItems) ∧
    (0 < p.qty → (max 0 ((p.qty : ℤ) - (item.qty : ℤ))).toNat = 0 →
      (AlertKind.outOfStock, p.name) ∈ saleAlerts products soldItems) := by
  constructor
  · intro h40 hlt hpos
    rw [saleAlerts, List.mem_filterMap]
    refine ⟨item, hmem, ?_⟩
    simp only [alertFor, hfind]
    rw [if_neg (by omega), if_pos ⟨h40, hlt⟩]
  · intro hpos hzero
    rw [saleAlerts, List.mem_filterMap]
    refine ⟨item, hmem, ?_⟩
    simp only [alertFor, hfind]
    rw [if_pos ⟨hpos, hzero⟩]

/-- Closed witness for C5: selling 2 of the 2-in-stock product B emits an
out-of-stock alert, and selling 3 of a 40-in-stock product emits a
low-stock alert. -/
theorem C5_sale_alerts_witness :
    (AlertKind.outOfStock, prodB.name) ∈ saleAlerts [prodA, prodB] [lineA, lineB] :=
  (C5_sale_alerts [prodA, prodB] [lineA, lineB] lineB prodB (by decide)
    (by decide)).2 (by decide) (by decide)

/-- Claim C10: processing a sale preserves the catalog's length and order,
leaves every product matched by no sold line completely unchanged in place,
and for sold products changes only the quantity and status fields. -/
theorem C10_sale_frame (products : List Product) (soldItems : List CartItem) :
    (handleProcessSaleProducts products soldItems).length = products.length ∧
    ∀ (i : ℕ) (p : Product), products[i]? = some p →
      ((∀ line ∈ soldItems, ¬ line.id = p.id) →
        (handleProcessSaleProducts products soldItems)[i]? = some p) ∧
      (∀ (q : Product), (handleProcessSaleProducts products soldItems)[i]? = some q →
        q.id = p.id ∧ q.name = p.name ∧ q.sku = p.sku ∧ q.category = p.category ∧
        q.price = p.price ∧ q.date = p.date ∧ q.image = p.image) := by
  refine ⟨by simp [handleProcessSaleProducts], ?_⟩
  intro i p hp
  constructor
  · intro hnone
    have hfind : soldItems.find? (fun it => it.id = p.id) = none := by
      rw [List.find?_eq_none]
      intro line hline
      simpa using hnone line hline
    simp [handleProcessSaleProducts, hp, hfind]
  · intro q hq
    rw [handleProcessSaleProducts, List.getElem?_map, hp, Option.map_some'] at hq
    injection hq with hq
    cases hfind : soldItems.find? (fun it => it.id = p.id) <;>
      simp only [hfind] at hq <;> subst hq <;> simp

/-- Closed witness for C10 at the worked example inputs. -/
theorem C10_sale_frame_witness :
    (handleProcessSaleProducts [prodA, prodB] [lineA, lineB]).length =
      ([prodA, prodB] : List Product).length :=
  (C10_sale_frame [prodA, prodB] [lineA, lineB]).1

/-- The cart line `addToCart` maintains for product `p` when it has been
added `k` times: quantity `k`, price snapshot, max-quantity ceiling equal to
the stock at first add. -/
def saleLine (p : Product) (k : ℕ) : CartItem :=
  { id := p.id, name := p.name, price := p.price, qty := k, maxQty := p.qty, sku := p.sku }

theorem addToCart_fresh (p : Product) (cart : List CartItem)
    (hnone : cart.find? (fun item => item.id = p.id) = none)
    (hstock : 0 < p.qty) :
    addToCart cart p = cart ++ [saleLine p 1] := by
  simp only [addToCart, hnone]
  rw [if_neg (by omega)]
  rfl

theorem addToCart_existing (p : Product) (cart : List CartItem)
    (hnone : cart.find? (fun item => item.id = p.id) = none)
    (k : ℕ) (hk : k < p.qty) :
    addToCart (cart ++ [saleLine p k]) p = cart ++ [saleLine p (k + 1)] := by
  have hfind : (cart ++ [saleLine p k]).find? (fun item => item.id = p.id) =
      some (saleLine p k) := by
    rw [List.find?_append, hnone]
    simp [saleLine]
  simp only [addToCart, hfind]
  rw [if_neg (by simp [saleLine]; omega)]
  rw [List.map_append]
  have hcart : cart.map (fun item =>
      if item.id = p.id then { item with qty := item.qty + 1 } else item) = cart := by
    have hid : ∀ item ∈ cart, ¬ item.id = p.id := by
      intro item hitem
      simpa using List.find?_eq_none.mp hnone item hitem
    calc cart.map (fun item =>
            if item.id = p.id then { item with qty := item.qty + 1 } else item)
        = cart.map id := List.map_congr_left (fun a ha => by simp [hid a ha])
      _ = cart := List.map_id cart
  rw [hcart]
  simp [saleLine]

theorem addToCart_at_stock (p : Product) (cart : List CartItem)
    (hnone : cart.find? (fun item => item.id = p.id) = none) :
    addToCart (cart ++ [saleLine p p.qty]) p = cart ++ [saleLine p p.qty] := by
  have hfind : (cart ++ [saleLine p p.qty]).find? (fun item => item.id = p.id) =
      some (saleLine p p.qty) := by
    rw [List.find?_append, hnone]
    simp [saleLine]
  simp only [addToCart, hfind]
  rw [if_pos (by simp [saleLine])]

/-- Claim C2: for a product with positive stock `s` not yet in the cart,
the k-th `addToCart` call (1 ≤ k ≤ s) leaves a single appended line for it
with quantity exactly k, a snapshot of the current price and a max-quantity
ceiling equal to the current stock — so the first call inserts quantity 1,
the s-th call reaches quantity s, and the (s+1)-th call is a no-op. -/
theorem C2_add_item_bounded (p : Product) (cart : List CartItem)
    (hstock : 0 < p.qty)
    (hnone : cart.find? (fun item => item.id = p.id) = none) :
    (∀ k, 1 ≤ k → k ≤ p.qty →
      (fun c => addToCart c p)^[k] cart = cart ++ [saleLine p k]) ∧
    (fun c => addToCart c p)^[p.qty + 1] cart = cart ++ [saleLine p p.qty] := by
  have main : ∀ k, 1 ≤ k → k ≤ p.qty →
      (fun c => addToCart c p)^[k] cart = cart ++ [saleLine p k] := by
    intro k
    induction k with
    | zero => omega
    | succ n ih =>
        intro _ hle
        rcases Nat.eq_zero_or_pos n with hn | hn
        · subst hn
          simpa using addToCart_fresh p cart hnone hstock
        · rw [Function.iterate_succ_apply']
          rw [ih hn (by omega)]
          exact addToCart_existing p cart hnone n (by omega)
  refine ⟨main, ?_⟩
  rw [Function.iterate_succ_apply']
  rw [main p.qty hstock (by omega)]
  exact addToCart_at_stock p cart hnone

/-- Closed witness for C2: adding the 2-in-stock product B to an empty cart
three times yields a single line of quantity 2. -/
theorem C2_add_item_bounded_witness :
    (fun c => addToCart c prodB)^[3] [] = [saleLine prodB 2] := by
  have h := (C2_add_item_bounded prodB [] (by decide) rfl).2
  simpa using h

/-- One user action on the cart, against a fixed catalog: an add of a
catalog product, a quantity change by ±1, or a removal — the three
operations of `src/pages/RegisterSale.tsx`. -/
inductive CartStep (products : List Product) : List CartItem → List CartItem → Prop where
  | add (cart : List CartItem) (p : Product) (hp : p ∈ products) :
      CartStep products cart (addToCart cart p)
  | change (cart : List CartItem) (id : String) (delta : ℤ)
      (hd : delta = 1 ∨ delta = -1) :
      CartStep products cart (updateCartQty cart id delta)
  | remove (cart : List CartItem) (id : String) :
      CartStep products cart (removeFromCart cart id)

/-- Cart states reachable from the empty cart by user actions. -/
def ReachableCart (products : List Product) (cart : List CartItem) : Prop :=
  Relation.ReflTransGen (CartStep products) [] cart

/-- The cart invariant: line ids are distinct, every line's quantity lies in
[1, maxQty], and each line's ceiling records the stock of the catalog
product with its id. -/
def CartInv (products : List Product) (cart : List CartItem) : Prop :=
  (cart.map (fun item => item.id)).Nodup ∧
  ∀ line ∈ cart, 1 ≤ line.qty ∧ line.qty ≤ line.maxQty ∧
    ∀ p ∈ products, p.id = line.id → line.maxQty = p.qty

theorem cartInv_nil (products : List Product) : CartInv products [] := by
  constructor
  · simp
  · simp

theorem cartInv_addToCart (products : List Product)
    (hprod : (products.map (fun p => p.id)).Nodup)
    (cart : List CartItem) (hinv : CartInv products cart)
    (p : Product) (hp : p ∈ products) :
    CartInv products (addToCart cart p) := by
  obtain ⟨hnodup, hlines⟩ := hinv
  cases hfind : cart.find? (fun item => item.id = p.id) with
  | none =>
      have hnotin : ∀ item ∈ cart, ¬ item.id = p.id := by
        intro item hitem
        simpa using List.find?_eq_none.mp hfind item hitem
      simp only [addToCart, hfind]
      split
      · exact ⟨hnodup, hlines⟩
      · rename_i hguard
        have hstock : 0 < p.qty := by omega
        constructor
        · rw [List.map_append, List.nodup_append]
          refine ⟨hnodup, by simp, ?_⟩
          intro x hx
          simp only [List.mem_map] at hx
          obtain ⟨item, hitem, rfl⟩ := hx
          simp only [List.map_cons, List.map_nil, List.mem_cons, List.not_mem_nil]
          intro hcontra
          rcases hcontra with h | h
          · exact hnotin item hitem h
          · exact h
        · intro line hline
          rcases List.mem_append.mp hline with hold | hnew
          · exact hlines line hold
          · simp only [List.mem_singleton] at hnew
            subst hnew
            refine ⟨le_refl 1, hstock, ?_⟩
            intro q hq hqid
            have : q = p := List.inj_on_of_nodup_map hprod hq hp (by simpa using hqid)
            subst this
            rfl
  | some it =>
      have hit_mem : it ∈ cart := List.mem_of_find?_eq_some hfind
      have hit_id : it.id = p.id := by simpa using List.find?_some hfind
      simp only [addToCart, hfind]
      split
      · exact ⟨hnodup, hlines⟩
      · rename_i hguard
        have hguard' : it.qty < p.qty := by omega
        constructor
        · have : (cart.map (fun item =>
              if item.id = p.id then { item with qty := item.qty + 1 } else item)).map
                (fun item => item.id) = cart.map (fun item => item.id) := by
            rw [List.map_map]
            apply List.map_congr_left
            intro a _
            by_cases h : a.id = p.id <;> simp [h]
          rw [this]
          exact hnodup
        · intro line hline
          simp only [List.mem_map] at hline
          obtain ⟨item, hitem, rfl⟩ := hline
          by_cases hid : item.id = p.id
          · have hitem_eq : item = it :=
              List.inj_on_of_nodup_map hnodup hitem hit_mem (by rw [hid, hit_id])
            obtain ⟨h1, h2, h3⟩ := hlines item hitem
            have hmax : item.maxQty = p.qty := h3 p hp hid.symm
            rw [if_pos hid]
            refine ⟨?_, ?_, ?_⟩
            · show 1 ≤ item.qty + 1
              omega
            · show item.qty + 1 ≤ item.maxQty
              rw [hitem_eq] at hmax ⊢
              omega
            · intro q hq hqid
              show item.maxQty = q.qty
              exact h3 q hq hqid
          · simp only [if_neg hid]
            exact hlines item hitem

theorem cartInv_updateCartQty (products : List Product)
    (cart : List CartItem) (hinv : CartInv products cart)
    (pid : String) (delta : ℤ) :
    CartInv products (updateCartQty cart pid delta) := by
  obtain ⟨hnodup, hlines⟩ := hinv
  constructor
  · have heq : ((updateCartQty cart pid delta).map (fun item => item.id)) =
        cart.map (fun item => item.id) := by
      rw [updateCartQty, List.map_map]
      apply List.map_congr_left
      intro a _
      simp only [Function.comp_apply]
      by_cases h : a.id = pid
      · rw [if_pos h]
        split_ifs <;> rfl
      · rw [if_neg h]
    rw [heq]
    exact hnodup
  · intro line hline
    rw [updateCartQty] at hline
    simp only [List.mem_map] at hline
    obtain ⟨item, hitem, rfl⟩ := hline
    obtain ⟨h1, h2, h3⟩ := hlines item hitem
    by_cases hid : item.id = pid
    · simp only [if_pos hid]
      split
      · exact ⟨h1, h2, h3⟩
      · split
        · exact ⟨h1, h2, h3⟩
        · rename_i hpos hmax
          refine ⟨?_, ?_, ?_⟩
          · show 1 ≤ ((item.qty : ℤ) + delta).toNat
            omega
          · show ((item.qty : ℤ) + delta).toNat ≤ item.maxQty
            omega
          · intro q hq hqid
            show item.maxQty = q.qty
            exact h3 q hq hqid
    · simp only [if_neg hid]
      exact ⟨h1, h2, h3⟩

theorem cartInv_removeFromCart (products : List Product)
    (cart : List CartItem) (hinv : CartInv products cart) (pid : String) :
    CartInv products (removeFromCart cart pid) := by
  obtain ⟨hnodup, hlines⟩ := hinv
  constructor
  · exact List.Nodup.sublist (List.Sublist.map _ (List.filter_sublist cart)) hnodup
  · intro line hline
    exact hlines line (List.mem_of_mem_filter hline)

theorem cartInv_reachable (products : List Product)
    (hprod : (products.map (fun p => p.id)).Nodup)
    (cart : List CartItem) (h : ReachableCart products cart) :
    CartInv products cart := by
  induction h with
  | refl => exact cartInv_nil products
  | tail hpre hstep ih =>
      cases hstep with
      | add p hp => exact cartInv_addToCart products hprod _ ih p hp
      | change i d hd => exact cartInv_updateCartQty products _ ih i d
      | remove i => exact cartInv_removeFromCart products _ ih i

/-- Claim C3: in every cart reachable by add/change/remove actions against
a catalog with distinct product ids, every line's quantity lies in
[1, maxQty]; and a ±1 quantity change whose target value would leave
[1, maxQty] is a no-op on the whole cart. -/
theorem C3_cart_quantity_invariant (products : List Product) (cart : List CartItem)
    (hprod : (products.map (fun p => p.id)).Nodup)
    (hreach : ReachableCart products cart) :
    (∀ line ∈ cart, 1 ≤ line.qty ∧ line.qty ≤ line.maxQty) ∧
    (∀ (pid : String) (delta : ℤ) (line : CartItem), delta = 1 ∨ delta = -1 →
      line ∈ cart → line.id = pid →
      ¬ (1 ≤ (line.qty : ℤ) + delta ∧ (line.qty : ℤ) + delta ≤ (line.maxQty : ℤ)) →
      updateCartQty cart pid delta = cart) := by
  obtain ⟨hnodup, hlines⟩ := cartInv_reachable products hprod cart hreach
  constructor
  · intro line hline
    obtain ⟨h1, h2, _⟩ := hlines line hline
    exact ⟨h1, h2⟩
  · intro pid delta line _ hline hlineid hout
    rw [updateCartQty]
    have hpt : ∀ a ∈ cart, (fun item =>
        if item.id = pid then
          let newQty : ℤ := (item.qty : ℤ) + delta
          if newQty ≤ 0 then item
          else if (item.maxQty : ℤ) < newQty then item
          else { item with qty := newQty.toNat }
        else item) a = id a := by
      intro a ha
      show (if a.id = pid then _ else a) = a
      by_cases hid : a.id = pid
      · have ha_eq : a = line :=
          List.inj_on_of_nodup_map hnodup ha hline (by rw [hid, hlineid])
        subst ha_eq
        rw [if_pos hid]
        rcases (by omega : (a.qty : ℤ) + delta ≤ 0 ∨ (a.maxQty : ℤ) < (a.qty : ℤ) + delta)
          with h | h
        · rw [if_pos h]
        · rw [if_neg (by omega), if_pos h]
      · rw [if_neg hid]
    rw [List.map_congr_left hpt, List.map_id]

/-- Closed witness for C3: the cart obtained by one add of product B
against the one-product catalog [B] satisfies the quantity bounds. -/
theorem C3_cart_quantity_invariant_witness :
    1 ≤ (saleLine prodB 1).qty ∧ (saleLine prodB 1).qty ≤ (saleLine prodB 1).maxQty := by
  have hreach : ReachableCart [prodB] (addToCart [] prodB) :=
    Relation.ReflTransGen.tail Relation.ReflTransGen.refl
      (CartStep.add [] prodB (by simp))
  exact (C3_cart_quantity_invariant [prodB] (addToCart [] prodB) (by simp)
    hreach).1 (saleLine prodB 1) (by decide)

/-- Save failure, after the SKU-uniqueness rejection in `handleSubmit`
(`src/pages/AddProduct.tsx` lines 194–246); the spec names it
`DuplicateSkuError`. -/
inductive SaveError where
  | duplicateSku
deriving DecidableEq, Repr

/-- JavaScript's `String.prototype.toLowerCase`, embedded character-wise. -/
def jsToLower (s : String) : String :=
  String.mk (s.toList.map Char.toLower)

/-- JavaScript's `String.prototype.trim`: strip leading and trailing
whitespace. -/
def jsTrim (s : String) : String :=
  String.mk (((s.toList.dropWhile Char.isWhitespace).reverse.dropWhile
    Char.isWhitespace).reverse)

/-- `checkSkuUnique` from `src/pages/AddProduct.tsx` (lines 154–158): the
SKU is unique iff no catalog product other than the one being edited
(`editingId`) carries it, compared case-insensitively. -/
def checkSkuUnique (products : List Product) (editingId : Option String)
    (skuToCheck : String) : Bool :=
  ! products.any (fun p =>
      jsToLower p.sku = jsToLower skuToCheck ∧ ¬ some p.id = editingId)

/-- The SKU-checked save path of `handleSubmit` in `src/pages/AddProduct.tsx`
(lines 194–246) combined with `handleSaveProduct` in `src/App.tsx`
(lines 648–690), for a non-empty trimmed SKU: a duplicate SKU is rejected
leaving the catalog unchanged; otherwise the product (with trimmed SKU and
recomputed status) replaces the record being edited, or is prepended under a
fresh id. -/
def handleSubmitSave (products : List Product) (editingId : Option String)
    (pd : Product) (freshId : String) : List Product × Option SaveError :=
  let finalSku := jsTrim pd.sku
  if checkSkuUnique products editingId finalSku then
    match editingId with
    | some eid =>
        (products.map (fun p =>
          if p.id = eid then
            { pd with sku := finalSku, id := eid, status := getStatus pd.qty }
          else p), none)
    | none =>
        ({ pd with sku := finalSku, id := freshId, status := getStatus pd.qty }
          :: products, none)
  else (products, some SaveError.duplicateSku)

/-- Demo product whose SKU "ABC-1" collides case-insensitively with "abc-1". -/
def prodSku : Product :=
  { id := "P1", name := "Existing", sku := "ABC-1", category := "Electronics",
    price := 5, qty := 10, status := "Low Stock", date := 0, image := "" }

/-- Demo form submission creating a product with SKU "abc-1". -/
def formSku : Product :=
  { id := "", name := "New", sku := "abc-1", category := "Electronics",
    price := 7, qty := 3, status := "", date := 0, image := "" }

/-- Claim C9: saving with a non-empty SKU that case-insensitively equals the
SKU of some other product fails with the duplicate-SKU error and leaves the
catalog unchanged; the check excludes the record being edited, so saving a
product under its own unchanged SKU succeeds; in particular creating
SKU "abc-1" while "ABC-1" exists fails. -/
theorem C9_sku_uniqueness (products : List Product) (editingId : Option String)
    (pd : Product) (freshId : String) (hne : ¬ jsTrim pd.sku = "") :
    ((∃ q ∈ products, jsToLower q.sku = jsToLower (jsTrim pd.sku) ∧
        ¬ some q.id = editingId) →
      handleSubmitSave products editingId pd freshId =
        (products, some SaveError.duplicateSku)) ∧
    ((∀ q ∈ products, jsToLower q.sku = jsToLower (jsTrim pd.sku) →
        some q.id = editingId) →
      (handleSubmitSave products editingId pd freshId).2 = none) ∧
    handleSubmitSave [prodSku] none formSku "P2" =
      ([prodSku], some SaveError.duplicateSku) := by
  refine ⟨?_, ?_, by decide⟩
  · intro hdup
    have hcheck : checkSkuUnique products editingId (jsTrim pd.sku) = false := by
      rw [checkSkuUnique, Bool.not_eq_false']
      rw [List.any_eq_true]
      obtain ⟨q, hq, hsku, hid⟩ := hdup
      exact ⟨q, hq, by simp [hsku, hid]⟩
    simp [handleSubmitSave, hcheck]
  · intro hok
    have hcheck : checkSkuUnique products editingId (jsTrim pd.sku) = true := by
      rw [checkSkuUnique, Bool.not_eq_true']
      rw [List.any_eq_false]
      intro q hq
      simp only [Bool.not_eq_true, decide_eq_false_iff_not, not_and, not_not]
      intro hsku
      exact hok q hq hsku
    cases editingId <;> simp [handleSubmitSave, hcheck]

/-- Closed witness for C9: the concrete case-insensitive collision fails. -/
theorem C9_sku_uniqueness_witness :
    handleSubmitSave [prodSku] none formSku "P2" =
      ([prodSku], some SaveError.duplicateSku) :=
  (C9_sku_uniqueness [prodSku] none formSku "P2" (by decide)).2.2

section StableSort

variable {α : Type} {β : Type} [LinearOrder β]

/-- The boolean order used to embed the ECMAScript stable
`Array.prototype.sort` with the comparator of `processedProducts` in
`src/unnamed/part_000` (lines 109–130): elements are tagged with their
original position; `x` sorts no later than `y` when the comparator puts `x`
strictly first (on the extracted key `f`, flipped for descending order), or
when the comparator ties and `x` originally preceded `y`. -/
def jsSortLe (f : α → β) (desc : Bool) (x y : ℕ × α) : Bool :=
  if desc then
    decide (f y.2 < f x.2) || (decide (f x.2 = f y.2) && decide (x.1 ≤ y.1))
  else
    decide (f x.2 < f y.2) || (decide (f x.2 = f y.2) && decide (x.1 ≤ y.1))

/-- Propositional form of `jsSortLe`. -/
def LeProp (f : α → β) (desc : Bool) (x y : ℕ × α) : Prop :=
  match desc with
  | false => f x.2 < f y.2 ∨ (f x.2 = f y.2 ∧ x.1 ≤ y.1)
  | true => f y.2 < f x.2 ∨ (f x.2 = f y.2 ∧ x.1 ≤ y.1)

theorem jsSortLe_iff (f : α → β) (desc : Bool) (x y : ℕ × α) :
    jsSortLe f desc x y = true ↔ LeProp f desc x y := by
  cases desc <;> simp [jsSortLe, LeProp]

theorem LeProp_trans (f : α → β) (desc : Bool) (x y z : ℕ × α)
    (h1 : LeProp f desc x y) (h2 : LeProp f desc y z) : LeProp f desc x z := by
  cases desc
  · rcases h1 with h1 | ⟨he1, hi1⟩ <;> rcases h2 with h2 | ⟨he2, hi2⟩
    · exact Or.inl (lt_trans h1 h2)
    · exact Or.inl (lt_of_lt_of_eq h1 he2)
    · exact Or.inl (lt_of_eq_of_lt he1 h2)
    · exact Or.inr ⟨he1.trans he2, le_trans hi1 hi2⟩
  · rcases h1 with h1 | ⟨he1, hi1⟩ <;> rcases h2 with h2 | ⟨he2, hi2⟩
    · exact Or.inl (lt_trans h2 h1)
    · exact Or.inl (lt_of_eq_of_lt he2.symm h1)
    · exact Or.inl (lt_of_lt_of_eq h2 he1.symm)
    · exact Or.inr ⟨he1.trans he2, le_trans hi1 hi2⟩

theorem LeProp_total (f : α → β) (desc : Bool) (x y : ℕ × α) :
    LeProp f desc x y ∨ LeProp f desc y x := by
  cases desc
  · rcases lt_trichotomy (f x.2) (f y.2) with h | h | h
    · exact Or.inl (Or.inl h)
    · rcases Nat.le_total x.1 y.1 with hi | hi
      · exact Or.inl (Or.inr ⟨h, hi⟩)
      · exact Or.inr (Or.inr ⟨h.symm, hi⟩)
    · exact Or.inr (Or.inl h)
  · rcases lt_trichotomy (f x.2) (f y.2) with h | h | h
    · exact Or.inr (Or.inl h)
    · rcases Nat.le_total x.1 y.1 with hi | hi
      · exact Or.inl (Or.inr ⟨h, hi⟩)
      · exact Or.inr (Or.inr ⟨h.symm, hi⟩)
    · exact Or.inl (Or.inl h)

/-- The embedded stable sort: tag every element with its original position,
merge sort by the comparator with position tie-break. -/
def stableSortIdx (f : α → β) (desc : Bool) (l : List α) : List (ℕ × α) :=
  l.enum.mergeSort (jsSortLe f desc)

theorem pairwise_stableSortIdx (f : α → β) (desc : Bool) (l : List α) :
    (stableSortIdx f desc l).Pairwise (LeProp f desc) := by
  have htrans : ∀ a b c : ℕ × α, jsSortLe f desc a b → jsSortLe f desc b c →
      jsSortLe f desc a c := by
    intro a b c h1 h2
    rw [jsSortLe_iff] at h1 h2 ⊢
    exact LeProp_trans f desc a b c h1 h2
  have htotal : ∀ a b : ℕ × α, jsSortLe f desc a b || jsSortLe f desc b a := by
    intro a b
    rw [Bool.or_eq_true, jsSortLe_iff, jsSortLe_iff]
    exact LeProp_total f desc a b
  exact (List.sorted_mergeSort htrans htotal l.enum).imp
    (fun h => (jsSortLe_iff f desc _ _).mp h)

theorem stableSortIdx_perm (f : α → β) (desc : Bool) (l : List α) :
    List.Perm (stableSortIdx f desc l) l.enum :=
  List.mergeSort_perm l.enum _

theorem stableSortIdx_nodup_fst (f : α → β) (desc : Bool) (l : List α) :
    ((stableSortIdx f desc l).map Prod.fst).Nodup := by
  rw [List.Perm.nodup_iff (List.Perm.map Prod.fst (stableSortIdx_perm f desc l))]
  exact List.nodup_enum_map_fst l

theorem stableSortIdx_nodup (f : α → β) (desc : Bool) (l : List α) :
    (stableSortIdx f desc l).Nodup :=
  (stableSortIdx_nodup_fst f desc l).of_map

theorem stableSortIdx_length (f : α → β) (desc : Bool) (l : List α) :
    (stableSortIdx f desc l).length = l.length := by
  rw [stableSortIdx, List.length_mergeSort, List.enum_length]

end StableSort

/-- `x` occurs strictly before `y` in the list `l`. -/
def listBefore {γ : Type} (l : List γ) (x y : γ) : Prop :=
  ∃ i j : Fin l.length, (i : ℕ) < (j : ℕ) ∧ l.get i = x ∧ l.get j = y

theorem listBefore_rel {γ : Type} {R : γ → γ → Prop} {l : List γ} {x y : γ}
    (h : l.Pairwise R) (hb : listBefore l x y) : R x y := by
  obtain ⟨i, j, hij, rfl, rfl⟩ := hb
  exact List.pairwise_iff_get.mp h i j hij

theorem listBefore_mem_left {γ : Type} {l : List γ} {x y : γ}
    (hb : listBefore l x y) : x ∈ l := by
  obtain ⟨i, j, hij, rfl, rfl⟩ := hb
  exact List.get_mem l i.1 i.2

theorem listBefore_mem_right {γ : Type} {l : List γ} {x y : γ}
    (hb : listBefore l x y) : y ∈ l := by
  obtain ⟨i, j, hij, rfl, rfl⟩ := hb
  exact List.get_mem l j.1 j.2

theorem listBefore_ne {γ : Type} {l : List γ} {x y : γ}
    (hnodup : l.Nodup) (hb : listBefore l x y) : x ≠ y := by
  obtain ⟨i, j, hij, rfl, rfl⟩ := hb
  intro he
  have hij' : i = j := (List.Nodup.get_inj_iff hnodup).mp he
  rw [hij'] at hij
  exact lt_irrefl _ hij

theorem listBefore_total {γ : Type} {l : List γ} {x y : γ}
    (hx : x ∈ l) (hy : y ∈ l) (hne : x ≠ y) :
    listBefore l x y ∨ listBefore l y x := by
  obtain ⟨i, hi⟩ := List.mem_iff_get.mp hx
  obtain ⟨j, hj⟩ := List.mem_iff_get.mp hy
  have hij : (i : ℕ) ≠ (j : ℕ) := by
    intro h
    apply hne
    rw [← hi, ← hj]
    congr 1
    exact Fin.ext h
  rcases Nat.lt_or_ge i.1 j.1 with h | h
  · exact Or.inl ⟨i, j, h, hi, hj⟩
  · exact Or.inr ⟨j, i, by omega, hj, hi⟩

theorem stableSortIdx_stable {α β : Type} [LinearOrder β]
    (f : α → β) (desc : Bool) (l : List α) (x y : ℕ × α)
    (hb : listBefore (stableSortIdx f desc l) x y) (heq : f x.2 = f y.2) :
    x.1 < y.1 := by
  have hle : LeProp f desc x y := listBefore_rel (pairwise_stableSortIdx f desc l) hb
  have hxmem : x ∈ stableSortIdx f desc l := listBefore_mem_left hb
  have hymem : y ∈ stableSortIdx f desc l := listBefore_mem_right hb
  have hne : x ≠ y := listBefore_ne (stableSortIdx_nodup f desc l) hb
  have hfst : x.1 ≠ y.1 := by
    intro h
    exact hne (List.inj_on_of_nodup_map (stableSortIdx_nodup_fst f desc l) hxmem hymem h)
  have hle' : x.1 ≤ y.1 := by
    cases desc <;> rcases hle with h | ⟨_, hi⟩
    · rw [heq] at h
      exact absurd h (lt_irrefl _)
    · exact hi
    · rw [heq] at h
      exact absurd h (lt_irrefl _)
    · exact hi
  omega

theorem stableSortIdx_asc_desc {α β : Type} [LinearOrder β]
    (f : α → β) (l : List α) (x y : ℕ × α)
    (hb : listBefore (stableSortIdx f false l) x y) :
    (¬ f x.2 = f y.2 → listBefore (stableSortIdx f true l) y x) ∧
    (f x.2 = f y.2 → listBefore (stableSortIdx f true l) x y) := by
  have hxmem : x ∈ stableSortIdx f false l := listBefore_mem_left hb
  have hymem : y ∈ stableSortIdx f false l := listBefore_mem_right hb
  have hxmem' : x ∈ stableSortIdx f true l := by
    rw [List.Perm.mem_iff (stableSortIdx_perm f true l)]
    exact (List.Perm.mem_iff (stableSortIdx_perm f false l)).mp hxmem
  have hymem' : y ∈ stableSortIdx f true l := by
    rw [List.Perm.mem_iff (stableSortIdx_perm f true l)]
    exact (List.Perm.mem_iff (stableSortIdx_perm f false l)).mp hymem
  have hne : x ≠ y := listBefore_ne (stableSortIdx_nodup f false l) hb
  have hasc : LeProp f false x y := listBefore_rel (pairwise_stableSortIdx f false l) hb
  constructor
  · intro hfne
    have hlt : f x.2 < f y.2 := by
      rcases hasc with h | ⟨he, _⟩
      · exact h
      · exact absurd he hfne
    rcases listBefore_total hxmem' hymem' hne with h | h
    · exfalso
      rcases listBefore_rel (pairwise_stableSortIdx f true l) h with h2 | ⟨he, _⟩
      · exact absurd h2 (lt_asymm hlt)
      · exact hfne he
    · exact h
  · intro hfeq
    have hidx : x.1 < y.1 := stableSortIdx_stable f false l x y hb hfeq
    rcases listBefore_total hxmem' hymem' hne with h | h
    · exact h
    · exfalso
      rcases listBefore_rel (pairwise_stableSortIdx f true l) h with h2 | ⟨_, hi⟩
      · rw [hfeq] at h2
        exact lt_irrefl _ h2
      · omega

/-- The sort keys of the inventory view (`sortConfig.key` in
`src/unnamed/part_000`): 'name', 'price', 'qty', 'date'. -/
inductive SortKey where
  | name
  | price
  | qty
  | date
deriving DecidableEq, Repr

/-- Sort direction (`sortConfig.direction`): 'asc' or 'desc'. -/
inductive SortDir where
  | asc
  | desc
deriving DecidableEq, Repr

/-- Whether the direction is descending, as used by the comparator. -/
def SortDir.isDesc : SortDir → Bool
  | SortDir.asc => false
  | SortDir.desc => true

/-- The index-tagged stable sort of the inventory view
(`src/unnamed/part_000`, lines 108–130), per sort key: name is compared as a
string, price numerically (parsed from the currency string), quantity
numerically, date chronologically. -/
def sortProductsIdx (key : SortKey) (dir : SortDir) (l : List Product) :
    List (ℕ × Product) :=
  match key with
  | SortKey.name => stableSortIdx (fun p => p.name) dir.isDesc l
  | SortKey.price => stableSortIdx (fun p => p.price) dir.isDesc l
  | SortKey.qty => stableSortIdx (fun p => p.qty) dir.isDesc l
  | SortKey.date => stableSortIdx (fun p => p.date) dir.isDesc l

/-- The sorted row list shown by the view (index tags dropped). -/
def sortProducts (key : SortKey) (dir : SortDir) (l : List Product) : List Product :=
  (sortProductsIdx key dir l).map Prod.snd

/-- Two products have equal sort keys for the given key. -/
def keyEq : SortKey → Product → Product → Prop
  | SortKey.name, a, b => a.name = b.name
  | SortKey.price, a, b => a.price = b.price
  | SortKey.qty, a, b => a.qty = b.qty
  | SortKey.date, a, b => a.date = b.date

/-- Claim C7: for every dataset, sort key and direction, the view's sort is
stable — index-tagged rows with equal sort keys appear in increasing
original position — and sorting the same dataset by price ascending and
then descending reverses the relative order of any two rows with distinct
prices while exact-price ties retain their relative order. -/
theorem C7_sort_stability (l : List Product) (key : SortKey) (dir : SortDir) :
    (∀ x y : ℕ × Product, listBefore (sortProductsIdx key dir l) x y →
      keyEq key x.2 y.2 → x.1 < y.1) ∧
    (∀ x y : ℕ × Product,
      listBefore (sortProductsIdx SortKey.price SortDir.asc l) x y →
      (¬ x.2.price = y.2.price →
        listBefore (sortProductsIdx SortKey.price SortDir.desc l) y x) ∧
      (x.2.price = y.2.price →
        listBefore (sortProductsIdx SortKey.price SortDir.desc l) x y)) := by
  constructor
  · intro x y hb hk
    cases key with
    | name =>
        simp only [sortProductsIdx] at hb
        simp only [keyEq] at hk
        exact stableSortIdx_stable (fun p => p.name) dir.isDesc l x y hb hk
    | price =>
        simp only [sortProductsIdx] at hb
        simp only [keyEq] at hk
        exact stableSortIdx_stable (fun p => p.price) dir.isDesc l x y hb hk
    | qty =>
        simp only [sortProductsIdx] at hb
        simp only [keyEq] at hk
        exact stableSortIdx_stable (fun p => p.qty) dir.isDesc l x y hb hk
    | date =>
        simp only [sortProductsIdx] at hb
        simp only [keyEq] at hk
        exact stableSortIdx_stable (fun p => p.date) dir.isDesc l x y hb hk
  · intro x y hb
    simp only [sortProductsIdx] at hb ⊢
    exact stableSortIdx_asc_desc (fun p => p.price) l x y hb

/-- Demo product with the same price as `prodA`, for the stability witness. -/
def prodC : Product :=
  { id := "C", name := "Product C", sku := "SKU-C", category := "Monitors",
    price := 10, qty := 7, status := "Low Stock", date := 1, image := "" }

theorem demo_sort_asc :
    sortProductsIdx SortKey.price SortDir.asc [prodA, prodC] =
      [(0, prodA), (1, prodC)] := by
  show List.mergeSort _ _ = _
  rw [List.mergeSort_of_sorted (by decide)]
  rfl

/-- Closed witness for C7: in the price-descending sort of a two-product
dataset with tied prices, the tied rows keep their ascending-order relative
position. -/
theorem C7_sort_stability_witness :
    listBefore (sortProductsIdx SortKey.price SortDir.desc [prodA, prodC])
      (0, prodA) (1, prodC) := by
  have hb : listBefore (sortProductsIdx SortKey.price SortDir.asc [prodA, prodC])
      (0, prodA) (1, prodC) := by
    rw [demo_sort_asc]
    exact ⟨⟨0, by decide⟩, ⟨1, by decide⟩, by decide, rfl, rfl⟩
  exact ((C7_sort_stability [prodA, prodC] SortKey.price SortDir.asc).2
    (0, prodA) (1, prodC) hb).2 (by decide)

/-- JavaScript's `String.prototype.includes`: substring containment,
embedded as character-list infix. -/
def jsIncludes (s pattern : String) : Bool :=
  decide (pattern.toList <:+: s.toList)

/-- The filter/sort parameters of the inventory view
(`src/unnamed/part_000`): search term, category filter, status filter and
sort configuration. -/
structure ViewParams where
  searchTerm : String
  selectedCategory : String
  selectedStatus : String
  sortKey : SortKey
  sortDir : SortDir
deriving DecidableEq, Repr

/-- The filter predicate of `processedProducts` (`src/unnamed/part_000`,
lines 96–106): name, SKU or category contains the search term
case-insensitively, the category filter is All or matches, and the status
filter is All or matches. -/
def matchesFilters (params : ViewParams) (product : Product) : Bool :=
  (jsIncludes (jsToLower product.name) (jsToLower params.searchTerm) ||
    jsIncludes (jsToLower product.sku) (jsToLower params.searchTerm) ||
    jsIncludes (jsToLower product.category) (jsToLower params.searchTerm)) &&
  (decide (params.selectedCategory = "All") ||
    decide (product.category = params.selectedCategory)) &&
  (decide (params.selectedStatus = "All") ||
    decide (product.status = params.selectedStatus))

/-- `processedProducts` from `src/unnamed/part_000` (lines 94–133): filter,
then stable sort. -/
def processedProducts (products : List Product) (params : ViewParams) :
    List Product :=
  sortProducts params.sortKey params.sortDir (products.filter (matchesFilters params))

/-- `ITEMS_PER_PAGE` from `src/unnamed/part_000` (line 25). -/
def ITEMS_PER_PAGE : ℕ := 20

/-- `totalPages` from `src/unnamed/part_000` (line 136):
`Math.ceil(processedProducts.length / ITEMS_PER_PAGE)`, which on naturals is
`(n + 19) / 20`. -/
def totalPages (products : List Product) (params : ViewParams) : ℕ :=
  ((processedProducts products params).length + ITEMS_PER_PAGE - 1) / ITEMS_PER_PAGE

/-- `paginatedProducts` from `src/unnamed/part_000` (line 138): the slice
`[(page-1)*20, page*20)` of the processed list. -/
def paginatedProducts (products : List Product) (params : ViewParams)
    (currentPage : ℕ) : List Product :=
  (((processedProducts products params).drop
    ((currentPage - 1) * ITEMS_PER_PAGE)).take ITEMS_PER_PAGE)

/-- The view's interactive state: the filter/sort parameters plus the
current page. -/
structure ViewState where
  params : ViewParams
  currentPage : ℕ
deriving DecidableEq, Repr

/-- `goToPage` from `src/unnamed/part_000` (lines 200–204): set the page
only when it lies in [1, totalPages]; otherwise keep the current page. -/
def goToPage (products : List Product) (st : ViewState) (page : ℕ) : ViewState :=
  if 1 ≤ page ∧ page ≤ totalPages products st.params then
    { st with currentPage := page }
  else st

/-- `setSearchTerm` plus the page-reset effect (`src/unnamed/part_000`,
lines 89–91): an unchanged value re-renders nothing (React bails out on
identical state); a changed value updates the term and resets the page
to 1. -/
def setSearchTerm (st : ViewState) (s : String) : ViewState :=
  if s = st.params.searchTerm then st
  else { params := { st.params with searchTerm := s }, currentPage := 1 }

/-- `setSelectedCategory` plus the page-reset effect. -/
def setSelectedCategory (st : ViewState) (c : String) : ViewState :=
  if c = st.params.selectedCategory then st
  else { params := { st.params with selectedCategory := c }, currentPage := 1 }

/-- `setSelectedStatus` plus the page-reset effect. -/
def setSelectedStatus (st : ViewState) (c : String) : ViewState :=
  if c = st.params.selectedStatus then st
  else { params := { st.params with selectedStatus := c }, currentPage := 1 }

/-- `handleSort` plus the page-reset effect: `setSortConfig` always stores a
fresh object, so the effect always runs and resets the page to 1. -/
def handleSort (st : ViewState) (key : SortKey) (dir : SortDir) : ViewState :=
  { params := { st.params with sortKey := key, sortDir := dir }, currentPage := 1 }

theorem sortProducts_length (key : SortKey) (dir : SortDir) (l : List Product) :
    (sortProducts key dir l).length = l.length := by
  cases key <;>
    simp [sortProducts, sortProductsIdx, stableSortIdx_length]

theorem ceil_div_twenty (n : ℕ) : ⌈(n : ℚ) / 20⌉₊ = (n + 19) / 20 := by
  rcases Nat.eq_zero_or_pos n with h | h
  · subst h
    simp
  · have hm : (n + 19) / 20 ≠ 0 := by omega
    rw [Nat.ceil_eq_iff hm]
    have h20 : (0 : ℚ) < 20 := by norm_num
    constructor
    · rw [lt_div_iff₀ h20]
      have f1 : ((n + 19) / 20 - 1) * 20 < n := by omega
      exact_mod_cast f1
    · rw [div_le_iff₀ h20]
      have f2 : n ≤ ((n + 19) / 20) * 20 := by omega
      exact_mod_cast f2

/-- Claim C8: the view paginates with fixed page size 20 and page count
ceil(filteredCount/20); a page request outside [1, pageCount] retains the
current page, an in-range request sets it; changing the search term,
category filter or status filter resets the page to 1, and so does any sort
request. -/
theorem C8_pagination (products : List Product) (st : ViewState) (page : ℕ)
    (s c stat : String) (key : SortKey) (dir : SortDir) :
    ITEMS_PER_PAGE = 20 ∧
    totalPages products st.params =
      ⌈(((products.filter (matchesFilters st.params)).length : ℚ)) / 20⌉₊ ∧
    (paginatedProducts products st.params page).length ≤ 20 ∧
    (¬ (1 ≤ page ∧ page ≤ totalPages products st.params) →
      goToPage products st page = st) ∧
    (1 ≤ page → page ≤ totalPages products st.params →
      goToPage products st page = { st with currentPage := page }) ∧
    (¬ s = st.params.searchTerm →
      setSearchTerm st s =
        ⟨{ st.params with searchTerm := s }, 1⟩) ∧
    (¬ c = st.params.selectedCategory →
      setSelectedCategory st c =
        ⟨{ st.params with selectedCategory := c }, 1⟩) ∧
    (¬ stat = st.params.selectedStatus →
      setSelectedStatus st stat =
        ⟨{ st.params with selectedStatus := stat }, 1⟩) ∧
    handleSort st key dir =
      ⟨{ st.params with sortKey := key, sortDir := dir }, 1⟩ := by
  refine ⟨rfl, ?_, ?_, ?_, ?_, ?_, ?_, ?_, rfl⟩
  · rw [ceil_div_twenty, totalPages, processedProducts, sortProducts_length]
    simp only [ITEMS_PER_PAGE]
    omega
  · rw [paginatedProducts]
    exact le_trans (List.length_take_le _ _) (le_refl 20)
  · intro h
    rw [goToPage, if_neg h]
  · intro h1 h2
    rw [goToPage, if_pos ⟨h1, h2⟩]
  · intro h
    rw [setSearchTerm, if_neg h]
  · intro h
    rw [setSelectedCategory, if_neg h]
  · intro h
    rw [setSelectedStatus, if_neg h]

/-- Empty default view parameters, for the C8 witness. -/
def demoParams : ViewParams :=
  { searchTerm := "", selectedCategory := "All", selectedStatus := "All",
    sortKey := SortKey.date, sortDir := SortDir.desc }

/-- Closed witness for C8: on the empty catalog, requesting page 5 retains
the current page, and changing the search term resets the page to 1. -/
theorem C8_pagination_witness :
    goToPage [] ⟨demoParams, 1⟩ 5 = ⟨demoParams, 1⟩ ∧
    setSearchTerm ⟨demoParams, 1⟩ "mouse" = ⟨{ demoParams with searchTerm := "mouse" }, 1⟩ := by
  constructor
  · apply (C8_pagination [] ⟨demoParams, 1⟩ 5 "" "" "" SortKey.date SortDir.desc).2.2.2.1
    intro hcon
    have htp : totalPages [] demoParams = 0 := by
      rw [totalPages, processedProducts]
      rw [List.filter_nil, sortProducts_length]
      simp [ITEMS_PER_PAGE]
    rw [htp] at hcon
    omega
  · exact (C8_pagination [] ⟨demoParams, 1⟩ 5 "mouse" "" "" SortKey.date
      SortDir.desc).2.2.2.2.2.1 (by decide)

end StockFlow
